import Mathlib

/-!
Shallow embedding of the round-progression and scoring engine of the
DF_backend quiz application (src/Quiz/views.py), together with the parts of
its data model (src/Quiz/models.py is not part of the sources; the fields and
methods it provides are modelled from the specification where noted).

Timestamps are modelled as natural numbers, database tables as lists of
records, and every Django ORM lookup that can raise an exception is modelled
by an `Option`-returning find.  Each HTTP view becomes a pure function from a
database state (plus the current time and request data) to a new database
state and a response; the numeric `status` field mirrors the status codes the
views put into their JSON bodies (200 ok, 410 quiz inactive, 404 not
found / finished, 500 wrong answer).
-/

/-- A clue row.  `round_number` models the foreign key to its owning round;
`posX`/`posY` model the coordinate pair returned by `getPosition()`
(coordinates are modelled as rationals).  `expectedAnswer` backs
`Clue.checkAnswer`. -/
structure Clue where
  id : Nat
  round_number : Nat
  question : String
  expectedAnswer : String
  posX : ℚ
  posY : ℚ
  deriving Repr, DecidableEq

/-- A round row: its unique `round_number` and the expected answer backing
`Round.checkAnswer`. -/
structure Round where
  round_number : Nat
  expectedAnswer : String
  deriving Repr, DecidableEq

/-- A player progress record, mirroring the `Player` model fields used by the
views: identity key `name`, denormalized profile data, current round index,
score, solved-clue id set (modelled as a list with set semantics), timestamp
of the last successful round advance, and the staff flag. -/
structure Player where
  name : String
  email : String
  first_name : String
  imageLink : String
  roundNo : Nat
  score : Nat
  solvedClues : List Nat
  submit_time : Nat
  isStaff : Bool
  deriving Repr, DecidableEq

/-- The `duration` window-policy record: play window, round ceiling and the
two leaderboard flags. -/
structure Duration where
  start_time : Nat
  end_time : Nat
  max_question : Nat
  leaderboard_freeze : Bool
  leaderboard_hide : Bool
  deriving Repr, DecidableEq

/-- The persistent store visible to the views: the (at most one, modelled as
optional) `duration` policy record and the player, round and clue tables. -/
structure DB where
  durationRec : Option Duration
  players : List Player
  rounds : List Round
  clues : List Clue
  deriving Repr, DecidableEq

/-- `Player.objects.get(name=username)`: `none` models the `DoesNotExist`
exception. -/
def findPlayer (db : DB) (username : String) : Option Player :=
  db.players.find? (fun q => q.name == username)

/-- `Round.objects.get(round_number=n)`. -/
def findRound (db : DB) (n : Nat) : Option Round :=
  db.rounds.find? (fun r => r.round_number == n)

/-- `Clue.objects.get(pk=clue_id)`. -/
def findClue (db : DB) (cid : Nat) : Option Clue :=
  db.clues.find? (fun c => c.id == cid)

/-- `player.save()`: write the mutated record back, keyed by its unique
`name`. -/
def DB.updatePlayer (db : DB) (p : Player) : DB :=
  { db with players := db.players.map (fun q => if q.name == p.name then p else q) }

/-- Modelled from the spec: `Player.checkClue(id)` lives in models.py, which
is not among the sources; the spec describes `solvedClues` as the set of clue
identifiers already solved, so membership is list membership. -/
def checkClue (solved : List Nat) (cid : Nat) : Bool :=
  solved.contains cid

/-- Modelled from the spec: `Player.putClues(pk)` lives in models.py, which
is not among the sources; the spec says a solved clue id is added to the
`solvedClues` set, with set semantics absorbing duplicates. -/
def putClues (solved : List Nat) (cid : Nat) : List Nat :=
  if solved.contains cid then solved else solved ++ [cid]

/-- Modelled from the spec: `Round.checkAnswer` / `Clue.checkAnswer` live in
models.py, which is not among the sources; the spec leaves the comparator
policy open, so it is modelled as exact string comparison against the stored
expected answer. -/
def answerMatches (expected answer : String) : Bool :=
  expected == answer

/-- `check_duration(username)` (views.py lines 29-44).  Returns `true` when
the gated operation must be rejected with status 410.  The `DoesNotExist`
exception of the player lookup (reachable only once a policy record exists)
is the modelled member of the `except Exception: return True` branch. -/
def check_duration (db : DB) (now : Nat) (username : String) : Bool :=
  match db.durationRec with
  | none => false
  | some obj =>
    match findPlayer db username with
    | none => true
    | some player =>
      if player.isStaff then false
      else if obj.start_time < now && now < obj.end_time then false
      else true

/-- `isPlayAllowed` of the specification is the negation of
`check_duration`'s reject signal. -/
def isPlayAllowed (db : DB) (now : Nat) (username : String) : Bool :=
  !(check_duration db now username)

/-- `isHidden()` (views.py lines 46-48). -/
def isHidden (db : DB) : Bool :=
  match db.durationRec with
  | some obj => obj.leaderboard_hide
  | none => false

/-- A view response: the numeric `status` the views place in their JSON body,
plus the optional payloads the claims need (the revealed clue position of
`putClue`, and the centre point of `getRound`). -/
structure Resp where
  status : Nat
  position : Option (ℚ × ℚ)
  centre : Option (ℚ × ℚ)
  deriving Repr, DecidableEq

/-- Response with only a status code. -/
def Resp.code (s : Nat) : Resp :=
  ⟨s, none, none⟩

/-- `Clue.objects.filter(round=round_obj)`: the clues whose foreign key is
this round. -/
def roundClues (db : DB) (rd : Round) : List Clue :=
  db.clues.filter (fun c => c.round_number == rd.round_number)

/-- `centrePoint(round_obj)` (views.py lines 100-113): the componentwise mean
of the positions of the clues whose foreign key is this round, `[0.0, 0.0]`
when there are none. -/
def centrePoint (db : DB) (rd : Round) : ℚ × ℚ :=
  match roundClues db rd with
  | [] => (0, 0)
  | cs =>
    ((cs.map (fun c => c.posX)).sum / cs.length,
     (cs.map (fun c => c.posY)).sum / cs.length)

/-- `getRound.get` (views.py lines 220-239): gate, then look up the player,
their current round and the policy record; a missing player or round raises
and is answered 404 ("Finished!"), as is a round index above `max_question`.
Read-only: the database is never mutated. -/
def getRound (db : DB) (now : Nat) (username : String) : Resp :=
  if check_duration db now username then Resp.code 410
  else
    match findPlayer db username with
    | none => Resp.code 404
    | some player =>
      match findRound db player.roundNo with
      | none => Resp.code 404
      | some curr =>
        match db.durationRec with
        | some dur =>
          if dur.max_question < player.roundNo then Resp.code 404
          else ⟨200, none, some (centrePoint db curr)⟩
        | none => ⟨200, none, some (centrePoint db curr)⟩

/-- The freeze test `dur and dur.leaderboard_freeze` of `checkRound.post`:
a missing policy record counts as unfrozen. -/
def freezeOn (db : DB) : Bool :=
  match db.durationRec with
  | some dur => dur.leaderboard_freeze
  | none => false

/-- The player mutation of `checkRound.post` on a correct answer: +10 score
unless frozen, round index +1, submission time stamped. -/
def advanceRound (db : DB) (now : Nat) (player : Player) : Player :=
  { player with
      score := if freezeOn db then player.score else player.score + 10,
      roundNo := player.roundNo + 1,
      submit_time := now }

/-- The player mutation of `putClue.post` on a correct answer: the clue id is
added to the solved set. -/
def solveClue (player : Player) (cid : Nat) : Player :=
  { player with solvedClues := putClues player.solvedClues cid }

/-- `checkRound.post` (views.py lines 242-261): gate, look up player and
current round (404 on the raised `DoesNotExist`), compare the answer; on a
match add 10 to the score unless a policy record with `leaderboard_freeze`
exists, advance `roundNo`, stamp `submit_time` and save; on a mismatch answer
500 with no mutation. -/
def checkRound (db : DB) (now : Nat) (username : String) (answer : String) :
    DB × Resp :=
  if check_duration db now username then (db, Resp.code 410)
  else
    match findPlayer db username with
    | none => (db, Resp.code 404)
    | some player =>
      match findRound db player.roundNo with
      | none => (db, Resp.code 404)
      | some round_obj =>
        if answerMatches round_obj.expectedAnswer answer then
          (db.updatePlayer (advanceRound db now player), Resp.code 200)
        else (db, Resp.code 500)

/-- One entry of `getClue`'s clue list: id, question, solved flag, and the
position when (and only when) solved. -/
structure ClueView where
  id : Nat
  question : String
  solved : Bool
  position : Option (ℚ × ℚ)
  deriving Repr, DecidableEq

/-- `getClue.get` (views.py lines 287-305): gate, look up player and current
round (404 on the raised exception), and list that round's clues, revealing a
position only for clues in the player's `solvedClues`.  Read-only. -/
def getClue (db : DB) (now : Nat) (username : String) :
    Resp × List ClueView :=
  if check_duration db now username then (Resp.code 410, [])
  else
    match findPlayer db username with
    | none => (Resp.code 404, [])
    | some player =>
      match findRound db player.roundNo with
      | none => (Resp.code 404, [])
      | some round_obj =>
        (Resp.code 200,
         (roundClues db round_obj).map (fun c =>
           let s := checkClue player.solvedClues c.id
           ⟨c.id, c.question, s, if s then some (c.posX, c.posY) else none⟩))

/-- `putClue.post` (views.py lines 308-322): gate, look up the player and the
clue by its global primary key (404 on the raised exception — note no check
that the clue belongs to the player's current round), compare the answer; on
a match add the clue id to `solvedClues`, save, and reveal the position; on a
mismatch answer 500 with no mutation. -/
def putClue (db : DB) (now : Nat) (username : String) (clue_id : Nat)
    (answer : String) : DB × Resp :=
  if check_duration db now username then (db, Resp.code 410)
  else
    match findPlayer db username with
    | none => (db, Resp.code 404)
    | some player =>
      match findClue db clue_id with
      | none => (db, Resp.code 404)
      | some clue =>
        if answerMatches clue.expectedAnswer answer then
          (db.updatePlayer (solveClue player clue.id),
           ⟨200, some (clue.posX, clue.posY), none⟩)
        else (db, Resp.code 500)

/-- The leaderboard ordering of `order_by("-score", "submit_time")`: score
descending, ties broken by submission time ascending. -/
def leLB (p q : Player) : Prop :=
  q.score < p.score ∨ (p.score = q.score ∧ p.submit_time ≤ q.submit_time)

instance decLeLB : DecidableRel leLB := fun p q =>
  inferInstanceAs (Decidable (q.score < p.score ∨ (p.score = q.score ∧ p.submit_time ≤ q.submit_time)))

instance totalLeLB : IsTotal Player leLB :=
  ⟨fun p q => by unfold leLB; omega⟩

instance transLeLB : IsTrans Player leLB :=
  ⟨fun p q r hpq hqr => by unfold leLB at *; omega⟩

/-- One leaderboard entry as emitted by `leaderboard.get`. -/
structure Standing where
  name : String
  rank : Nat
  score : Nat
  image : String
  deriving Repr, DecidableEq

/-- `enumerate(players, 1)`: pair each element of the sorted list with its
1-based position. -/
def withRanks : Nat → List Player → List Standing
  | _, [] => []
  | r, p :: ps => ⟨p.first_name, r, p.score, p.imageLink⟩ :: withRanks (r + 1) ps

/-- The sorted selection of `leaderboard.get`: non-staff players ordered by
score descending then submission time ascending (Django's `order_by` is a
stable sort, modelled by insertion sort, which is stable). -/
def sortedNonStaff (db : DB) : List Player :=
  List.insertionSort leLB (db.players.filter (fun p => !p.isStaff))

/-- `leaderboard.get` (views.py lines 130-144): an empty list when
`isHidden()`, otherwise one ranked entry per non-staff player in sorted
order. -/
def leaderboard_get (db : DB) : List Standing :=
  if isHidden db then []
  else withRanks 1 (sortedNonStaff db)

/-- The core operations a player-facing request can perform, with their
request data. -/
inductive Op where
  | fetchRound (now : Nat) (username : String)
  | submitRound (now : Nat) (username : String) (answer : String)
  | fetchClues (now : Nat) (username : String)
  | submitClue (now : Nat) (username : String) (clue_id : Nat) (answer : String)
  deriving Repr, DecidableEq

/-- The database after one core operation (the two fetch views are
read-only). -/
def applyOp (db : DB) : Op → DB
  | .fetchRound _ _ => db
  | .submitRound now u a => (checkRound db now u a).1
  | .fetchClues _ _ => db
  | .submitClue now u cid a => (putClue db now u cid a).1

/-- The database after a sequence of core operations. -/
def applyOps (db : DB) (ops : List Op) : DB :=
  ops.foldl applyOp db

/-- The progress order on player records: round index and score
non-decreasing, solved-clue set only growing. -/
def Player.progressLe (p q : Player) : Prop :=
  p.roundNo ≤ q.roundNo ∧ p.score ≤ q.score ∧ p.solvedClues ⊆ q.solvedClues

def wPlayer : Player := ⟨"w", "w@x", "W", "img", 1, 0, [], 0, false⟩
def sPlayer : Player := ⟨"s", "s@x", "S", "img", 1, 0, [], 0, true⟩
def round1 : Round := ⟨1, "open sesame"⟩
def clue1 : Clue := ⟨1, 1, "q1", "beta", 0, 0⟩
def clue7 : Clue := ⟨7, 5, "q7", "alpha", 2, 4⟩
def basePolicy : Duration := ⟨10, 20, 3, false, false⟩
def errDb : DB := ⟨some basePolicy, [], [round1], [clue1, clue7]⟩
def winDb : DB := ⟨some basePolicy, [wPlayer, sPlayer], [round1], [clue1, clue7]⟩
def freeDb : DB := ⟨none, [wPlayer], [round1], [clue1, clue7]⟩

def noRoundDb : DB := ⟨none, [wPlayer], [], [clue1, clue7]⟩

def vPlayer : Player := ⟨"v", "v@x", "V", "img", 1, 0, [7], 0, false⟩
def solvedDb : DB := ⟨none, [vPlayer], [round1], [clue1, clue7]⟩

def clueM1 : Clue := ⟨11, 1, "m1", "a1", 0, 0⟩
def clueM2 : Clue := ⟨12, 1, "m2", "a2", 2, 4⟩
def meanDb : DB := ⟨none, [], [round1], [clueM1, clueM2]⟩
def round2 : Round := ⟨2, "r2"⟩

def lbA : Player := ⟨"A", "a@x", "A", "imgA", 1, 30, [], 5, false⟩
def lbB : Player := ⟨"B", "b@x", "B", "imgB", 1, 30, [], 3, false⟩
def lbC : Player := ⟨"C", "c@x", "C", "imgC", 1, 20, [], 7, false⟩
def lbDb : DB := ⟨none, [lbA, lbB, lbC], [round1], []⟩
def hidePolicy : Duration := ⟨10, 20, 3, false, true⟩
def hideDb : DB := ⟨some hidePolicy, [lbA, lbB, lbC], [round1], []⟩

def tieP : Player := ⟨"P", "p@x", "P", "imgP", 1, 10, [], 4, false⟩
def tieQ : Player := ⟨"Q", "q@x", "Q", "imgQ", 1, 10, [], 4, false⟩
def tiedDb : DB := ⟨none, [tieP, tieQ], [], []⟩

/-- Dense ranking as the claim's wording describes it, defined only to
compare the claim against the code's enumeration: players with equal sort key
(equal score and equal submission time) share a rank, and the rank grows by
one at each strictly smaller key. -/
def denseRanksSpec : Nat → List Player → List Nat
  | _, [] => []
  | r, [_] => [r]
  | r, p :: q :: l =>
      r :: denseRanksSpec
        (if p.score = q.score ∧ p.submit_time = q.submit_time then r else r + 1)
        (q :: l)

theorem Player.progressLe_refl (p : Player) : Player.progressLe p p :=
  ⟨le_refl _, le_refl _, fun _ h => h⟩

theorem Player.progressLe_trans {p q r : Player}
    (h1 : Player.progressLe p q) (h2 : Player.progressLe q r) :
    Player.progressLe p r :=
  ⟨h1.1.trans h2.1, h1.2.1.trans h2.2.1, fun _ hc => h2.2.2 (h1.2.2 hc)⟩


theorem find?_map_update_self (l : List Player) (u : String) (p p1 : Player)
    (hp : l.find? (fun q => q.name == u) = some p) (hn : p1.name = p.name) :
    (l.map (fun q => if q.name == p1.name then p1 else q)).find?
      (fun q => q.name == u) = some p1 := by
  have hpu : p.name = u := by
    have := List.find?_some hp
    simpa using this
  induction l with
  | nil => simp at hp
  | cons a l ih =>
    simp only [List.map_cons, List.find?_cons] at hp ⊢
    by_cases ha : a.name = u
    · have hb : (a.name == u) = true := by simpa using ha
      simp only [hb] at hp
      have hap : a = p := by simpa using hp
      have he : (a.name == p1.name) = true := by
        simp only [beq_iff_eq]; rw [hap, hn]
      simp only [he, if_true]
      have hpn : (p1.name == u) = true := by
        simp only [beq_iff_eq]; rw [hn, hpu]
      simp only [hpn]
    · have hb : (a.name == u) = false := by simpa using ha
      simp only [hb] at hp
      by_cases hc : a.name = p1.name
      · have hcb : (a.name == p1.name) = true := by simpa using hc
        simp only [hcb, if_true]
        have : (p1.name == u) = false := by
          simp only [beq_eq_false_iff_ne, ne_eq]
          rw [← hc]; exact ha
        simp only [this]
        exact ih hp
      · have hcb : (a.name == p1.name) = false := by simpa using hc
        simp only [hcb, Bool.false_eq_true, if_false, hb]
        exact ih hp

theorem find?_map_update_other (l : List Player) (u : String) (p1 : Player)
    (hne : p1.name ≠ u) :
    (l.map (fun q => if q.name == p1.name then p1 else q)).find?
      (fun q => q.name == u) = l.find? (fun q => q.name == u) := by
  induction l with
  | nil => simp
  | cons a l ih =>
    simp only [List.map_cons, List.find?_cons]
    by_cases hc : a.name = p1.name
    · have hcb : (a.name == p1.name) = true := by simpa using hc
      have h1 : (p1.name == u) = false := by simpa using hne
      have h2 : (a.name == u) = false := by
        simp only [beq_eq_false_iff_ne, ne_eq]
        rw [hc]; exact hne
      simp only [hcb, if_true, h1, h2]
      exact ih
    · have hcb : (a.name == p1.name) = false := by simpa using hc
      simp only [hcb, Bool.false_eq_true, if_false]
      by_cases ha : a.name = u
      · have hb : (a.name == u) = true := by simpa using ha
        simp only [hb]
      · have hb : (a.name == u) = false := by simpa using ha
        simp only [hb]
        exact ih

theorem findPlayer_name (db : DB) (u : String) (p : Player)
    (hp : findPlayer db u = some p) : p.name = u := by
  have := List.find?_some hp
  simpa using this

theorem findPlayer_updatePlayer (db : DB) (u : String) (p p1 : Player)
    (hp : findPlayer db u = some p) :
    findPlayer (db.updatePlayer p1) u =
      (if p1.name = p.name then some p1 else findPlayer db u) := by
  by_cases h : p1.name = p.name
  · simp only [if_pos h]
    exact find?_map_update_self db.players u p p1 hp h
  · simp only [if_neg h]
    have hpu : p.name = u := findPlayer_name db u p hp
    exact find?_map_update_other db.players u p1 (by rw [← hpu]; exact h)

theorem same_user_eq (db : DB) (u u1 : String) (p player : Player)
    (hp : findPlayer db u = some p) (hq : findPlayer db u1 = some player)
    (he : player.name = p.name) : player = p := by
  have e1 : p.name = u := findPlayer_name db u p hp
  have e2 : player.name = u1 := findPlayer_name db u1 player hq
  have : u1 = u := by rw [← e1, ← e2, he]
  rw [this, hp] at hq
  exact (Option.some.inj hq).symm

theorem checkRound_player_mono (db : DB) (now : Nat) (u u1 a : String)
    (p : Player) (hp : findPlayer db u = some p) :
    ∃ p1, findPlayer (checkRound db now u1 a).1 u = some p1 ∧
      Player.progressLe p p1 := by
  unfold checkRound
  split
  · exact ⟨p, hp, Player.progressLe_refl p⟩
  · split
    · exact ⟨p, hp, Player.progressLe_refl p⟩
    · rename_i player hq
      split
      · exact ⟨p, hp, Player.progressLe_refl p⟩
      · split
        · rw [findPlayer_updatePlayer db u p (advanceRound db now player) hp]
          by_cases he : (advanceRound db now player).name = p.name
          · have hpe : player = p := same_user_eq db u u1 p player hp hq he
            subst hpe
            refine ⟨advanceRound db now player, by simp [he], ?_⟩
            refine ⟨Nat.le_succ _, ?_, fun c hc => hc⟩
            unfold advanceRound
            dsimp only
            split
            · exact le_refl _
            · exact Nat.le_add_right _ _
          · exact ⟨p, by simp [if_neg he, hp], Player.progressLe_refl p⟩
        · exact ⟨p, hp, Player.progressLe_refl p⟩

theorem putClue_player_mono (db : DB) (now : Nat) (u u1 : String)
    (cid : Nat) (a : String) (p : Player) (hp : findPlayer db u = some p) :
    ∃ p1, findPlayer (putClue db now u1 cid a).1 u = some p1 ∧
      Player.progressLe p p1 := by
  unfold putClue
  split
  · exact ⟨p, hp, Player.progressLe_refl p⟩
  · split
    · exact ⟨p, hp, Player.progressLe_refl p⟩
    · rename_i player hq
      split
      · exact ⟨p, hp, Player.progressLe_refl p⟩
      · rename_i clue hcl
        split
        · rw [findPlayer_updatePlayer db u p (solveClue player clue.id) hp]
          by_cases he : (solveClue player clue.id).name = p.name
          · have hpe : player = p := same_user_eq db u u1 p player hp hq he
            subst hpe
            refine ⟨solveClue player clue.id, by simp [he], ?_⟩
            refine ⟨le_refl _, le_refl _, ?_⟩
            unfold solveClue putClues
            dsimp only
            split
            · exact fun c hcm => hcm
            · exact fun c hcm => List.mem_append_left _ hcm
          · exact ⟨p, by simp [if_neg he, hp], Player.progressLe_refl p⟩
        · exact ⟨p, hp, Player.progressLe_refl p⟩

theorem applyOp_player_mono (db : DB) (op : Op) (u : String) (p : Player)
    (hp : findPlayer db u = some p) :
    ∃ p1, findPlayer (applyOp db op) u = some p1 ∧ Player.progressLe p p1 := by
  cases op with
  | fetchRound now u1 => exact ⟨p, hp, Player.progressLe_refl p⟩
  | submitRound now u1 a => exact checkRound_player_mono db now u u1 a p hp
  | fetchClues now u1 => exact ⟨p, hp, Player.progressLe_refl p⟩
  | submitClue now u1 cid a => exact putClue_player_mono db now u u1 cid a p hp

theorem applyOps_player_mono (ops : List Op) (db : DB) (u : String)
    (p : Player) (hp : findPlayer db u = some p) :
    ∃ p1, findPlayer (applyOps db ops) u = some p1 ∧ Player.progressLe p p1 := by
  induction ops generalizing db p with
  | nil => exact ⟨p, hp, Player.progressLe_refl p⟩
  | cons op ops ih =>
    obtain ⟨q, hq, hle⟩ := applyOp_player_mono db op u p hp
    obtain ⟨p1, hp1, hle1⟩ := ih (applyOp db op) q hq
    exact ⟨p1, hp1, Player.progressLe_trans hle hle1⟩

theorem check_duration_eq (db : DB) (now : Nat) (u : String)
    (dur : Duration) (p : Player) (hd : db.durationRec = some dur)
    (hp : findPlayer db u = some p) :
    check_duration db now u =
      (!p.isStaff && !(decide (dur.start_time < now) && decide (now < dur.end_time))) := by
  unfold check_duration
  rw [hd]
  simp only [hp]
  cases hs : p.isStaff
  · simp only [Bool.not_false, Bool.true_and, if_neg (by simp [hs] : ¬ p.isStaff = true)]
    cases hw : (decide (dur.start_time < now) && decide (now < dur.end_time))
    · simp [hw]
    · simp [hw]
  · simp [hs]

theorem gate_blocks (db : DB) (now : Nat) (u a : String) (cid : Nat)
    (hcd : check_duration db now u = true) :
    getRound db now u = Resp.code 410 ∧
    checkRound db now u a = (db, Resp.code 410) ∧
    getClue db now u = (Resp.code 410, []) ∧
    putClue db now u cid a = (db, Resp.code 410) := by
  refine ⟨?_, ?_, ?_, ?_⟩
  · unfold getRound; rw [if_pos hcd]
  · unfold checkRound; rw [if_pos hcd]
  · unfold getClue; rw [if_pos hcd]
  · unfold putClue; rw [if_pos hcd]

theorem gate_passes (db : DB) (now : Nat) (u a : String) (cid : Nat)
    (hcd : check_duration db now u = false) :
    (getRound db now u).status ≠ 410 ∧
    (checkRound db now u a).2.status ≠ 410 ∧
    (getClue db now u).1.status ≠ 410 ∧
    (putClue db now u cid a).2.status ≠ 410 := by
  have hne : ¬ check_duration db now u = true := by simp [hcd]
  refine ⟨?_, ?_, ?_, ?_⟩
  · unfold getRound
    rw [if_neg hne]
    repeat' split
    all_goals simp [Resp.code]
  · unfold checkRound
    rw [if_neg hne]
    repeat' split
    all_goals simp [Resp.code]
  · unfold getClue
    rw [if_neg hne]
    repeat' split
    all_goals simp [Resp.code]
  · unfold putClue
    rw [if_neg hne]
    repeat' split
    all_goals simp [Resp.code]

/-- Claim C1, counterexample: with a window-policy record present and a
username whose player lookup fails (the modelled `DoesNotExist` exception
inside `check_duration`'s `try` block), the policy does not fail open:
`isPlayAllowed` is `false` and the gated operation is rejected with the
QuizInactive status 410 instead of proceeding. -/
theorem playAllowed_error_counterexample :
    errDb.durationRec = some basePolicy ∧
    findPlayer errDb "ghost" = none ∧
    isPlayAllowed errDb 15 "ghost" = false ∧
    (checkRound errDb 15 "ghost" "x").2.status = 410 :=
  ⟨rfl, rfl, rfl, rfl⟩

/-- Claim C1 as amended: when an internal error occurs while the window
policy is consulted — in this embedding, the player lookup inside
`check_duration` failing after a policy record was found — the policy fails
closed, not open: `isPlayAllowed` returns `false` and every gated operation
fails with the QuizInactive status 410 and makes no state change. -/
theorem playAllowed_fails_closed_on_error (db : DB) (now : Nat) (u a : String)
    (cid : Nat) (dur : Duration) (hd : db.durationRec = some dur)
    (hu : findPlayer db u = none) :
    isPlayAllowed db now u = false ∧
    getRound db now u = Resp.code 410 ∧
    checkRound db now u a = (db, Resp.code 410) ∧
    getClue db now u = (Resp.code 410, []) ∧
    putClue db now u cid a = (db, Resp.code 410) := by
  have hcd : check_duration db now u = true := by
    unfold check_duration
    rw [hd]
    simp only [hu]
  have hb := gate_blocks db now u a cid hcd
  refine ⟨?_, hb.1, hb.2.1, hb.2.2.1, hb.2.2.2⟩
  unfold isPlayAllowed
  rw [hcd]
  rfl

/-- Witness for the amended claim C1 at a concrete input. -/
theorem playAllowed_fails_closed_on_error_witness :
    isPlayAllowed errDb 15 "ghost" = false ∧
    getRound errDb 15 "ghost" = Resp.code 410 ∧
    checkRound errDb 15 "ghost" "x" = (errDb, Resp.code 410) ∧
    getClue errDb 15 "ghost" = (Resp.code 410, []) ∧
    putClue errDb 15 "ghost" 7 "x" = (errDb, Resp.code 410) :=
  playAllowed_fails_closed_on_error errDb 15 "ghost" "x" 7 basePolicy rfl rfl

/-- Claim C2: with a policy record `[T0, T1]`, a non-staff player's gated
operation at `now < T0` or `now > T1` fails with the QuizInactive status 410
and changes no state; at `T0 < now < T1` it passes the gate; a staff player
always passes the gate regardless of `now`; and with no policy record every
player passes the gate. -/
theorem window_gating (db : DB) (now : Nat) (u a : String) (cid : Nat) :
    (∀ dur p, db.durationRec = some dur → findPlayer db u = some p →
       p.isStaff = false → (now < dur.start_time ∨ dur.end_time < now) →
       check_duration db now u = true ∧
       getRound db now u = Resp.code 410 ∧
       checkRound db now u a = (db, Resp.code 410) ∧
       getClue db now u = (Resp.code 410, []) ∧
       putClue db now u cid a = (db, Resp.code 410)) ∧
    (∀ dur p, db.durationRec = some dur → findPlayer db u = some p →
       dur.start_time < now → now < dur.end_time →
       check_duration db now u = false ∧
       (getRound db now u).status ≠ 410 ∧
       (checkRound db now u a).2.status ≠ 410 ∧
       (getClue db now u).1.status ≠ 410 ∧
       (putClue db now u cid a).2.status ≠ 410) ∧
    (∀ p, findPlayer db u = some p → p.isStaff = true →
       check_duration db now u = false ∧
       (getRound db now u).status ≠ 410 ∧
       (checkRound db now u a).2.status ≠ 410 ∧
       (getClue db now u).1.status ≠ 410 ∧
       (putClue db now u cid a).2.status ≠ 410) ∧
    (db.durationRec = none →
       check_duration db now u = false ∧
       (getRound db now u).status ≠ 410 ∧
       (checkRound db now u a).2.status ≠ 410 ∧
       (getClue db now u).1.status ≠ 410 ∧
       (putClue db now u cid a).2.status ≠ 410) := by
  refine ⟨?_, ?_, ?_, ?_⟩
  · intro dur p hd hp hs hw
    have hcd : check_duration db now u = true := by
      rw [check_duration_eq db now u dur p hd hp, hs]
      have hf : (decide (dur.start_time < now) && decide (now < dur.end_time)) = false := by
        rcases hw with h | h
        · have h1 : ¬ dur.start_time < now := by omega
          simp [h1]
        · have h2 : ¬ now < dur.end_time := by omega
          simp [h2]
      rw [hf]
      rfl
    have hb := gate_blocks db now u a cid hcd
    exact ⟨hcd, hb.1, hb.2.1, hb.2.2.1, hb.2.2.2⟩
  · intro dur p hd hp h1 h2
    have hcd : check_duration db now u = false := by
      rw [check_duration_eq db now u dur p hd hp]
      simp [h1, h2]
    have hg := gate_passes db now u a cid hcd
    exact ⟨hcd, hg.1, hg.2.1, hg.2.2.1, hg.2.2.2⟩
  · intro p hp hs
    have hcd : check_duration db now u = false := by
      cases hdr : db.durationRec with
      | none => unfold check_duration; rw [hdr]
      | some dur =>
        rw [check_duration_eq db now u dur p hdr hp, hs]
        rfl
    have hg := gate_passes db now u a cid hcd
    exact ⟨hcd, hg.1, hg.2.1, hg.2.2.1, hg.2.2.2⟩
  · intro hdn
    have hcd : check_duration db now u = false := by
      unfold check_duration
      rw [hdn]
    have hg := gate_passes db now u a cid hcd
    exact ⟨hcd, hg.1, hg.2.1, hg.2.2.1, hg.2.2.2⟩

/-- Witness for claim C2 at concrete inputs: a non-staff player is blocked
after the window closes, passes the gate inside the window, a staff player
passes outside the window, and with no policy record the gate is open. -/
theorem window_gating_witness :
    (check_duration winDb 25 "w" = true ∧
      checkRound winDb 25 "w" "x" = (winDb, Resp.code 410)) ∧
    check_duration winDb 15 "w" = false ∧
    check_duration winDb 25 "s" = false ∧
    check_duration freeDb 25 "w" = false :=
  ⟨⟨((window_gating winDb 25 "w" "x" 7).1 basePolicy wPlayer rfl rfl rfl
      (Or.inr (by decide))).1,
    ((window_gating winDb 25 "w" "x" 7).1 basePolicy wPlayer rfl rfl rfl
      (Or.inr (by decide))).2.2.1⟩,
   ((window_gating winDb 15 "w" "x" 7).2.1 basePolicy wPlayer rfl rfl
      (by decide) (by decide)).1,
   ((window_gating winDb 25 "s" "x" 7).2.2.1 sPlayer rfl rfl).1,
   ((window_gating freeDb 25 "w" "x" 7).2.2.2 rfl).1⟩

/-- Claim C3: when the gate is open and the submitted answer matches the
current round's expected answer, `checkRound.post` succeeds, advances
`roundNo` by exactly 1, stamps `submit_time` with the current time, leaves
`solvedClues` unchanged, adds exactly 10 to `score` when the policy's freeze
flag is not in effect and leaves `score` unchanged when it is. -/
theorem submit_round_correct (db : DB) (now : Nat) (u a : String)
    (p : Player) (rd : Round)
    (hcd : check_duration db now u = false)
    (hp : findPlayer db u = some p)
    (hr : findRound db p.roundNo = some rd)
    (hm : answerMatches rd.expectedAnswer a = true) :
    (checkRound db now u a).2.status = 200 ∧
    ∃ p1, findPlayer (checkRound db now u a).1 u = some p1 ∧
      p1.roundNo = p.roundNo + 1 ∧
      p1.submit_time = now ∧
      (freezeOn db = false → p1.score = p.score + 10) ∧
      (freezeOn db = true → p1.score = p.score) ∧
      p1.solvedClues = p.solvedClues := by
  unfold checkRound
  rw [if_neg (by simp [hcd])]
  simp only [hp, hr]
  rw [if_pos hm]
  refine ⟨rfl, advanceRound db now p, ?_, rfl, rfl, ?_, ?_, rfl⟩
  · rw [findPlayer_updatePlayer db u p (advanceRound db now p) hp]
    simp [advanceRound]
  · intro hf
    simp [advanceRound, hf]
  · intro hf
    simp [advanceRound, hf]

/-- Witness for claim C3: an unfrozen concrete submission gains 10 points,
advances the round and stamps the time. -/
theorem submit_round_correct_witness :
    (checkRound freeDb 42 "w" "open sesame").2.status = 200 ∧
    ∃ p1, findPlayer (checkRound freeDb 42 "w" "open sesame").1 "w" = some p1 ∧
      p1.roundNo = wPlayer.roundNo + 1 ∧
      p1.submit_time = 42 ∧
      (freezeOn freeDb = false → p1.score = wPlayer.score + 10) ∧
      (freezeOn freeDb = true → p1.score = wPlayer.score) ∧
      p1.solvedClues = wPlayer.solvedClues :=
  submit_round_correct freeDb 42 "w" "open sesame" wPlayer round1 rfl rfl rfl rfl

/-- Claim C7: each operation independently — when the gate is open and the
submitted answer does not match the current round's expected answer,
`checkRound.post` answers the WrongAnswer status 500 with the database, in
particular the whole player record, unchanged; and when the gate is open and
the submitted answer does not match the referenced clue's expected answer,
`putClue.post` answers status 500 with the database unchanged, whatever the
player's current round (it need not exist) and whatever the round's expected
answer. -/
theorem wrong_answer_no_mutation (db : DB) (now : Nat) (u a : String)
    (cid : Nat) :
    (∀ p rd, check_duration db now u = false →
       findPlayer db u = some p →
       findRound db p.roundNo = some rd →
       answerMatches rd.expectedAnswer a = false →
       checkRound db now u a = (db, Resp.code 500) ∧
       findPlayer (checkRound db now u a).1 u = some p) ∧
    (∀ p clue, check_duration db now u = false →
       findPlayer db u = some p →
       findClue db cid = some clue →
       answerMatches clue.expectedAnswer a = false →
       putClue db now u cid a = (db, Resp.code 500) ∧
       findPlayer (putClue db now u cid a).1 u = some p) := by
  constructor
  · intro p rd hcd hp hr hmr
    have h1 : checkRound db now u a = (db, Resp.code 500) := by
      unfold checkRound
      rw [if_neg (by simp [hcd])]
      simp only [hp, hr]
      rw [if_neg (by simp [hmr])]
    exact ⟨h1, by rw [h1]; exact hp⟩
  · intro p clue hcd hp hc hmc
    have h2 : putClue db now u cid a = (db, Resp.code 500) := by
      unfold putClue
      rw [if_neg (by simp [hcd])]
      simp only [hp, hc]
      rw [if_neg (by simp [hmc])]
    exact ⟨h2, by rw [h2]; exact hp⟩

/-- Witness for claim C7: a concrete wrong round answer, and independently a
concrete wrong clue answer from a player whose current round does not even
exist in the round table. -/
theorem wrong_answer_no_mutation_witness :
    (checkRound freeDb 42 "w" "nope" = (freeDb, Resp.code 500) ∧
     findPlayer (checkRound freeDb 42 "w" "nope").1 "w" = some wPlayer) ∧
    (findRound noRoundDb wPlayer.roundNo = none ∧
     putClue noRoundDb 42 "w" 1 "nope" = (noRoundDb, Resp.code 500) ∧
     findPlayer (putClue noRoundDb 42 "w" 1 "nope").1 "w" = some wPlayer) :=
  ⟨(wrong_answer_no_mutation freeDb 42 "w" "nope" 1).1 wPlayer round1
     rfl rfl rfl rfl,
   rfl,
   (wrong_answer_no_mutation noRoundDb 42 "w" "nope" 1).2 wPlayer clue1
     rfl rfl rfl rfl⟩

/-- Claim C4: over any sequence of core operations (round fetch, round
submission, clue list, clue submission) by any users, a player's `roundNo`
and `score` never decrease and `solvedClues` never loses an element. -/
theorem progress_monotone (ops : List Op) (db : DB) (u : String)
    (p p1 : Player) (hp : findPlayer db u = some p)
    (hp1 : findPlayer (applyOps db ops) u = some p1) :
    p.roundNo ≤ p1.roundNo ∧ p.score ≤ p1.score ∧
      ∀ c ∈ p.solvedClues, c ∈ p1.solvedClues := by
  obtain ⟨q, hq, hle⟩ := applyOps_player_mono ops db u p hp
  rw [hp1] at hq
  have hqe : p1 = q := Option.some.inj hq
  subst hqe
  exact ⟨hle.1, hle.2.1, fun c hc => hle.2.2 hc⟩

/-- Witness for claim C4 after a concrete correct round submission followed
by a correct clue submission. -/
theorem progress_monotone_witness :
    wPlayer.roundNo ≤ 2 ∧ wPlayer.score ≤ 10 ∧
      ∀ c ∈ wPlayer.solvedClues, c ∈ ([7] : List Nat) :=
  progress_monotone
    [Op.submitRound 42 "w" "open sesame", Op.submitClue 43 "w" 7 "alpha"]
    freeDb "w" wPlayer ⟨"w", "w@x", "W", "img", 2, 10, [7], 42, false⟩ rfl rfl

/-- Claim C6: resubmitting the correct answer of an already-solved clue is an
idempotent success: `putClue.post` answers 200 with the clue's position and
the player record keeps the same `solvedClues`, `score`, `roundNo` and
`submit_time`. -/
theorem clue_resubmit_idempotent (db : DB) (now : Nat) (u a : String)
    (cid : Nat) (p : Player) (clue : Clue)
    (hcd : check_duration db now u = false)
    (hp : findPlayer db u = some p)
    (hc : findClue db cid = some clue)
    (hm : answerMatches clue.expectedAnswer a = true)
    (hsolved : clue.id ∈ p.solvedClues) :
    (putClue db now u cid a).2 = ⟨200, some (clue.posX, clue.posY), none⟩ ∧
    ∃ p1, findPlayer (putClue db now u cid a).1 u = some p1 ∧
      p1.solvedClues = p.solvedClues ∧ p1.score = p.score ∧
      p1.roundNo = p.roundNo ∧ p1.submit_time = p.submit_time := by
  unfold putClue
  rw [if_neg (by simp [hcd])]
  simp only [hp, hc]
  rw [if_pos hm]
  refine ⟨rfl, solveClue p clue.id, ?_, ?_, rfl, rfl, rfl⟩
  · rw [findPlayer_updatePlayer db u p (solveClue p clue.id) hp]
    simp [solveClue]
  · simp [solveClue, putClues, hsolved]

/-- Witness for claim C6: the player has clue 7 solved already and resubmits
its correct answer. -/
theorem clue_resubmit_idempotent_witness :
    (putClue solvedDb 42 "v" 7 "alpha").2 = ⟨200, some (2, 4), none⟩ ∧
    ∃ p1, findPlayer (putClue solvedDb 42 "v" 7 "alpha").1 "v" = some p1 ∧
      p1.solvedClues = vPlayer.solvedClues ∧ p1.score = vPlayer.score ∧
      p1.roundNo = vPlayer.roundNo ∧ p1.submit_time = vPlayer.submit_time :=
  clue_resubmit_idempotent solvedDb 42 "v" "alpha" 7 vPlayer clue7
    rfl rfl rfl rfl (by decide)

/-- Claim C10: `putClue.post` resolves the clue id globally — nothing relates
the clue's owning round to the player's `roundNo` — so any existing clue's
correct answer succeeds, enters the clue into `solvedClues` and reveals its
position. -/
theorem clue_resolved_globally (db : DB) (now : Nat) (u a : String)
    (cid : Nat) (p : Player) (clue : Clue)
    (hcd : check_duration db now u = false)
    (hp : findPlayer db u = some p)
    (hc : findClue db cid = some clue)
    (hm : answerMatches clue.expectedAnswer a = true) :
    (putClue db now u cid a).2 = ⟨200, some (clue.posX, clue.posY), none⟩ ∧
    ∃ p1, findPlayer (putClue db now u cid a).1 u = some p1 ∧
      clue.id ∈ p1.solvedClues ∧
      p1.solvedClues = putClues p.solvedClues clue.id := by
  unfold putClue
  rw [if_neg (by simp [hcd])]
  simp only [hp, hc]
  rw [if_pos hm]
  refine ⟨rfl, solveClue p clue.id, ?_, ?_, rfl⟩
  · rw [findPlayer_updatePlayer db u p (solveClue p clue.id) hp]
    simp [solveClue]
  · show clue.id ∈ putClues p.solvedClues clue.id
    unfold putClues
    split
    · rename_i h
      simpa using h
    · exact List.mem_append_right _ (List.mem_singleton.mpr rfl)

/-- Witness for claim C10: the player is on round 1 yet solves clue 7, which
belongs to round 5. -/
theorem clue_resolved_globally_witness :
    clue7.round_number = 5 ∧ wPlayer.roundNo = 1 ∧
    ((putClue freeDb 42 "w" 7 "alpha").2 = ⟨200, some (2, 4), none⟩ ∧
     ∃ p1, findPlayer (putClue freeDb 42 "w" 7 "alpha").1 "w" = some p1 ∧
       clue7.id ∈ p1.solvedClues ∧
       p1.solvedClues = putClues wPlayer.solvedClues clue7.id) :=
  ⟨rfl, rfl, clue_resolved_globally freeDb 42 "w" "alpha" 7 wPlayer clue7
    rfl rfl rfl rfl⟩

theorem withRanks_map_name (r : Nat) (l : List Player) :
    (withRanks r l).map (fun s => s.name) = l.map (fun p => p.first_name) := by
  induction l generalizing r with
  | nil => rfl
  | cons p ps ih => simp [withRanks, ih]

theorem withRanks_length (r : Nat) (l : List Player) :
    (withRanks r l).length = l.length := by
  induction l generalizing r with
  | nil => rfl
  | cons p ps ih => simp [withRanks, ih]

theorem withRanks_map_rank (r : Nat) (l : List Player) :
    (withRanks r l).map (fun s => s.rank) = List.range' r l.length := by
  induction l generalizing r with
  | nil => rfl
  | cons p ps ih => simp [withRanks, ih, List.range'_succ]

theorem withRanks_map_entry (r : Nat) (l : List Player) :
    (withRanks r l).map (fun s => (s.name, s.score, s.image)) =
      l.map (fun p => (p.first_name, p.score, p.imageLink)) := by
  induction l generalizing r with
  | nil => rfl
  | cons p ps ih => simp [withRanks, ih]

/-- Claim C8: the derived centre point of a round is the arithmetic mean of
the positions of all clues belonging to that round — componentwise, centre
times the clue count equals the coordinate sum — and is `(0, 0)` for a round
with no clues; concretely, clues at (0,0) and (2,4) give centre (1, 2) and a
clueless round gives (0, 0). -/
theorem centrePoint_is_mean (db : DB) (rd : Round) :
    (roundClues db rd = [] → centrePoint db rd = (0, 0)) ∧
    (roundClues db rd ≠ [] →
       (centrePoint db rd).1 * (roundClues db rd).length =
         ((roundClues db rd).map (fun c => c.posX)).sum ∧
       (centrePoint db rd).2 * (roundClues db rd).length =
         ((roundClues db rd).map (fun c => c.posY)).sum) ∧
    centrePoint meanDb round1 = (1, 2) ∧
    centrePoint meanDb round2 = (0, 0) := by
  refine ⟨?_, ?_, ?_, ?_⟩
  · intro h
    unfold centrePoint
    rw [h]
  · intro h
    unfold centrePoint
    cases hcs : roundClues db rd with
    | nil => exact absurd hcs h
    | cons a l =>
      have hne : (((a :: l).length : ℚ)) ≠ 0 :=
        Nat.cast_ne_zero.mpr (Nat.succ_ne_zero l.length)
      exact ⟨div_mul_cancel₀ _ hne, div_mul_cancel₀ _ hne⟩
  · norm_num [centrePoint, roundClues, meanDb, round1, clueM1, clueM2, List.filter]
  · decide

/-- Witness for claim C8: the two-clue round of the claim's example satisfies
the mean equations. -/
theorem centrePoint_is_mean_witness :
    (centrePoint meanDb round1).1 * (roundClues meanDb round1).length =
      ((roundClues meanDb round1).map (fun c => c.posX)).sum ∧
    (centrePoint meanDb round1).2 * (roundClues meanDb round1).length =
      ((roundClues meanDb round1).map (fun c => c.posY)).sum :=
  (centrePoint_is_mean meanDb round1).2.1 (by decide)

/-- Claim C9: with a policy record whose hide flag is set the leaderboard is
empty whatever the player data; with no policy record, or one with the flag
unset, the full non-staff standings are returned (one entry per non-staff
player, a permutation of their names). -/
theorem leaderboard_hidden (db : DB) :
    (∀ dur, db.durationRec = some dur → dur.leaderboard_hide = true →
       leaderboard_get db = []) ∧
    ((db.durationRec = none ∨
        ∃ dur, db.durationRec = some dur ∧ dur.leaderboard_hide = false) →
       ((leaderboard_get db).map (fun s => s.name)).Perm
         ((db.players.filter (fun p => !p.isStaff)).map (fun p => p.first_name)) ∧
       (leaderboard_get db).length
         = (db.players.filter (fun p => !p.isStaff)).length) := by
  constructor
  · intro dur hd hh
    unfold leaderboard_get
    rw [if_pos (by unfold isHidden; rw [hd]; exact hh)]
  · intro hoff
    have hih : isHidden db = false := by
      unfold isHidden
      rcases hoff with h | ⟨dur, hd, hh⟩
      · rw [h]
      · rw [hd]
        exact hh
    unfold leaderboard_get
    rw [if_neg (by simp [hih])]
    constructor
    · rw [withRanks_map_name]
      exact (List.perm_insertionSort leLB _).map (fun p => p.first_name)
    · rw [withRanks_length]
      exact (List.perm_insertionSort leLB _).length_eq

/-- Witness for claim C9: the hide flag empties the concrete three-player
leaderboard; without a policy record the same players fill it. -/
theorem leaderboard_hidden_witness :
    leaderboard_get hideDb = [] ∧
    (leaderboard_get lbDb).length
      = (lbDb.players.filter (fun p => !p.isStaff)).length :=
  ⟨(leaderboard_hidden hideDb).1 hidePolicy rfl rfl,
   ((leaderboard_hidden lbDb).2 (Or.inl rfl)).2⟩

/-- Claim C5, counterexample: two non-staff players with equal score and
equal submission time receive the distinct sequential ranks 1 and 2 from
`leaderboard.get`, where dense ranking as claimed would give both rank 1. -/
theorem dense_rank_counterexample :
    tieP.score = tieQ.score ∧ tieP.submit_time = tieQ.submit_time ∧
    (leaderboard_get tiedDb).map (fun s => s.rank) = [1, 2] ∧
    denseRanksSpec 1 (sortedNonStaff tiedDb) = [1, 1] ∧
    (leaderboard_get tiedDb).map (fun s => s.rank) ≠
      denseRanksSpec 1 (sortedNonStaff tiedDb) :=
  ⟨rfl, rfl, rfl, rfl, by decide⟩

/-- Claim C5 as amended: when the leaderboard is not hidden, `leaderboard.get`
emits exactly the non-staff players (a permutation of the selection), sorted
by score descending with ties broken by earlier submission time, and numbers
them with sequential ranks 1, 2, 3, …; on the claim's concrete example the
standings are [B(rank 1), A(rank 2), C(rank 3)]. -/
theorem leaderboard_ordering (db : DB) (hnh : isHidden db = false) :
    (leaderboard_get db).map (fun s => (s.name, s.score, s.image)) =
      (sortedNonStaff db).map (fun p => (p.first_name, p.score, p.imageLink)) ∧
    (leaderboard_get db).map (fun s => s.rank) =
      List.range' 1 (sortedNonStaff db).length ∧
    (sortedNonStaff db).Perm (db.players.filter (fun p => !p.isStaff)) ∧
    List.Sorted leLB (sortedNonStaff db) ∧
    leaderboard_get lbDb =
      [⟨"B", 1, 30, "imgB"⟩, ⟨"A", 2, 30, "imgA"⟩, ⟨"C", 3, 20, "imgC"⟩] := by
  refine ⟨?_, ?_, List.perm_insertionSort leLB _, List.sorted_insertionSort leLB _, rfl⟩
  · unfold leaderboard_get
    rw [if_neg (by simp [hnh])]
    exact withRanks_map_entry 1 _
  · unfold leaderboard_get
    rw [if_neg (by simp [hnh])]
    exact withRanks_map_rank 1 _

/-- Witness for the amended claim C5 on the claim's own example. -/
theorem leaderboard_ordering_witness :
    (leaderboard_get lbDb).map (fun s => s.rank) =
      List.range' 1 (sortedNonStaff lbDb).length ∧
    leaderboard_get lbDb =
      [⟨"B", 1, 30, "imgB"⟩, ⟨"A", 2, 30, "imgA"⟩, ⟨"C", 3, 20, "imgC"⟩] :=
  ⟨(leaderboard_ordering lbDb rfl).2.1,
   (leaderboard_ordering lbDb rfl).2.2.2.2⟩
